import Mathlib

/-!
Verification development for the discogs-barcode-lookup repository.

The Python sources are shallowly embedded as executable Lean definitions:

* `src/process_discogs_data.py` — ingestion of release records into the
  SQLite table `releases` (`id INTEGER PRIMARY KEY`, secondary index on
  `barcode`).  A release element that has already been parsed out of the
  XML stream is modelled as a `Release` structure carrying the scalar
  fields and nested node contents that `process_releases` reads.
* `src/barcode_lookup.py` — the indexed-store lookup (`lookup_barcode`),
  the JSON association store (`associate_barcode_with_album`,
  `find_all_albums_in_database`).
* `src/album_json_creator.py` — filename sanitization, album-JSON
  creation, the per-file album store (`find_all_albums_by_barcode`,
  `batch_mode` selection) and the master-inventory merge
  (`update_inventory`).

SQLite conventions used by the model: `INSERT OR REPLACE` conflicts only
on the primary key `id` (the only uniqueness constraint in the schema),
so it deletes any existing row with the same `id` and inserts the new
row; `SELECT * FROM releases WHERE barcode = ?` followed by `fetchone()`
is modelled as the matching row that comes first in the scan order of
the `idx_barcode` index, i.e. the matching row with the least `id`
(rowid).  Python `str.strip()` is modelled on whitespace characters and
Python `str.isdigit()` on the decimal digits that occur in barcodes.
-/

/-- Python `''.join(c for c in barcode if c.isdigit())` — the barcode
normalization used identically at `process_discogs_data.py:133`,
`process_discogs_data.py:178` and `barcode_lookup.py:41`. -/
def normalizeBarcode (s : String) : String :=
  ⟨s.toList.filter Char.isDigit⟩

/-- Python `str.strip()` : drop whitespace from both ends. -/
def pstrip (s : String) : String :=
  ⟨((s.toList.dropWhile Char.isWhitespace).reverse.dropWhile
      Char.isWhitespace).reverse⟩

/-- Python `', '.join(xs)`. -/
def joinComma (xs : List String) : String :=
  String.intercalate ", " xs

/-- An `<identifier type=... value=.../>` node of a release element. -/
structure Identifier where
  idType : String
  value : String
deriving DecidableEq, Repr

/-- A parsed `<release>` element, carrying exactly the pieces that
`process_releases` (`process_discogs_data.py:92-133`) reads from it:
the `id` attribute, `title`, nested `artist/name` texts, the raw
`released` text, `country`, nested `format` name attributes, nested
`label` name and catno attributes, nested `genre` texts, and the nested
`identifier` nodes. -/
structure Release where
  id : Nat
  title : String
  artistNames : List String
  released : String
  country : String
  formatNames : List String
  labelNames : List String
  catnos : List String
  genreNames : List String
  identifiers : List Identifier
deriving DecidableEq, Repr

/-- A row of the `releases` table
(`process_discogs_data.py:33-46`). -/
structure Row where
  id : Nat
  barcode : String
  title : String
  artist : String
  year : Option Nat
  country : String
  format : String
  label : String
  genre : String
  catno : String
deriving DecidableEq, Repr

/-- `year = int(year) if year and year.isdigit() else None`
(`process_discogs_data.py:104`). -/
def yearOf (rel : Release) : Option Nat :=
  if rel.released ≠ "" ∧ rel.released.toList.all Char.isDigit then
    rel.released.toNat?
  else
    none

/-- The row inserted for one `(release, barcode)` pair
(`process_discogs_data.py:136-140`); the joined string fields filter
out falsy components exactly as the list comprehensions at
`process_discogs_data.py:99-125` do. -/
def rowOfRelease (rel : Release) (bc : String) : Row :=
  { id := rel.id
    barcode := bc
    title := rel.title
    artist := joinComma (rel.artistNames.filter (fun s => ¬s.isEmpty))
    year := yearOf rel
    country := rel.country
    format := joinComma (rel.formatNames.filter (fun s => ¬s.isEmpty))
    label := joinComma (rel.labelNames.filter (fun s => ¬s.isEmpty))
    genre := joinComma (rel.genreNames.filter (fun s => ¬s.isEmpty))
    catno := joinComma (rel.catnos.filter (fun s => ¬s.isEmpty)) }

/-- The barcodes a release contributes, in identifier order
(`process_discogs_data.py:128-133`): keep identifiers typed
`"Barcode"`, strip the value, drop values that are empty *before*
digit-filtering, then normalize to digits-only.  Note the emptiness
test happens on the stripped raw value, not on the normalized one. -/
def extractBarcodes (rel : Release) : List String :=
  rel.identifiers.filterMap (fun i =>
    if i.idType = "Barcode" then
      let b := pstrip i.value
      if b ≠ "" then some (normalizeBarcode b) else none
    else
      none)

/-- SQLite `INSERT OR REPLACE` into a table whose only uniqueness
constraint is the `INTEGER PRIMARY KEY id`: any existing row with the
same `id` is deleted, the new row inserted. -/
def insertOrReplace (db : List Row) (r : Row) : List Row :=
  r :: db.filter (fun x => x.id ≠ r.id)

/-- Processing of one release element: one `INSERT OR REPLACE` per
surviving barcode (`process_discogs_data.py:129-142`). -/
def processRelease (db : List Row) (rel : Release) : List Row :=
  (extractBarcodes rel).foldl
    (fun d bc => insertOrReplace d (rowOfRelease rel bc)) db

/-- `process_releases`: the table is cleared (`DELETE FROM releases`,
`process_discogs_data.py:73`) and every release of the dump is
processed in sequence. -/
def processReleases (rels : List Release) : List Row :=
  rels.foldl processRelease []

/-- The matching row with the least `id`, ties going to the earlier
list position.  Models the order in which the `idx_barcode` index scan
delivers rows (ascending rowid within one barcode value). -/
def minIdRow : List Row → Option Row
  | [] => none
  | r :: rest =>
    match minIdRow rest with
    | none => some r
    | some m => some (if r.id ≤ m.id then r else m)

/-- `SELECT * FROM releases WHERE barcode = ?` followed by
`fetchone()` (`barcode_lookup.py:49-53`). -/
def fetchBarcodeRow (db : List Row) (b : String) : Option Row :=
  minIdRow (db.filter (fun r => r.barcode = b))

/-- The first-artist truncation used at `barcode_lookup.py:63-64`,
`barcode_lookup.py:248-249` and `album_json_creator.py:282-283`:
`if ',' in artist: artist = artist.split(',')[0].strip()`. -/
def firstArtist (s : String) : String :=
  if ',' ∈ s.toList then pstrip ⟨s.toList.takeWhile (fun c => c ≠ ',')⟩
  else s

/-- `s.split(', ') if s else []` as used for the format/label/genre
columns at `barcode_lookup.py:74-76`. -/
def splitIfNonempty (s : String) : List String :=
  if s.isEmpty then [] else s.splitOn ", "

/-- The metadata dictionary built by `lookup_barcode`
(`barcode_lookup.py:66-79`). -/
structure Metadata where
  barcode : String
  discogsId : Nat
  discogsUrl : String
  title : String
  artist : String
  year : Option Nat
  country : String
  formats : List String
  labels : List String
  genres : List String
  catno : String
  path : String
deriving DecidableEq, Repr

/-- `barcode_lookup.py:60-79`: metadata extracted from a fetched row;
`b` is the (already normalized) local variable `barcode`. -/
def metaOfRow (b : String) (r : Row) : Metadata :=
  { barcode := b
    discogsId := r.id
    discogsUrl := "https://www.discogs.com/release/" ++ toString r.id
    title := r.title
    artist := firstArtist r.artist
    year := r.year
    country := r.country
    formats := splitIfNonempty r.format
    labels := splitIfNonempty r.label
    genres := splitIfNonempty r.genre
    catno := r.catno
    path := "" }

/-- `lookup_barcode` (`barcode_lookup.py:23-87`): normalize the raw
input to digits-only, query the `releases` table for it, and build the
metadata dictionary from the fetched row (`None` on a miss). -/
def lookupBarcode (db : List Row) (raw : String) : Option Metadata :=
  let b := normalizeBarcode raw
  (fetchBarcodeRow db b).map (metaOfRow b)

/-- A per-album JSON file's content, as read back by
`find_all_albums_by_barcode` and `update_inventory`: only the
`"Barcode"` key is inspected (`Option` models a missing key under
Python's `dict.get`); `payload` stands for the remaining fields, so
that distinct records compare unequal. -/
structure AlbumRecord where
  Barcode : Option String
  payload : String
deriving DecidableEq, Repr

/-- `find_all_albums_by_barcode` (`album_json_creator.py:48-76`): scan
the JSON files in file-system enumeration order and keep those whose
`Barcode` equals the query (Python `None == barcode` is `False`). -/
def findAllAlbumsByBarcode (files : List (String × AlbumRecord))
    (b : String) : List (String × AlbumRecord) :=
  files.filter (fun p => p.2.Barcode = some b)

/-- The batch-mode selection among matches
(`album_json_creator.py:455`): `matching_albums[0]`. -/
def batchFirstMatch (files : List (String × AlbumRecord)) (b : String) :
    Option (String × AlbumRecord) :=
  (findAllAlbumsByBarcode files b).head?

/-- Python truthiness of `album_data.get("Barcode")`: `None` and the
empty string are falsy. -/
def truthy : Option String → Bool
  | none => false
  | some s => ¬s.isEmpty

/-- The file-processing loop of `update_inventory`
(`album_json_creator.py:230-244`): skip a record whose barcode is
truthy and already tracked, otherwise append it to the inventory and —
only when truthy — track its barcode. -/
def updInv (acc : List AlbumRecord) (ex : List (Option String)) :
    List AlbumRecord → List AlbumRecord
  | [] => acc
  | a :: rest =>
    if truthy a.Barcode = true ∧ a.Barcode ∈ ex then
      updInv acc ex rest
    else
      updInv (acc ++ [a])
        (if truthy a.Barcode = true then ex ++ [a.Barcode] else ex) rest

/-- `update_inventory` (`album_json_creator.py:208-260`): seed the
tracked-barcode set from the current inventory and merge every album
file in, returning the new inventory's `albums` list. -/
def updateInventory (inv files : List AlbumRecord) : List AlbumRecord :=
  updInv inv (inv.map (fun a => a.Barcode)) files

/-- Entry of the JSON association store, as built at
`barcode_lookup.py:255-269`.  `now` stands in for
`datetime.now().isoformat()`. -/
structure AssocEntry where
  barcode : String
  artist : String
  album : String
  discogsId : Nat
  discogsUrl : String
  year : Option Nat
  genres : List String
  formats : List String
  labels : List String
  country : String
  catno : String
  path : String
  timestamp : String
deriving DecidableEq, Repr

/-- Python `a or b` for an optional string override: falls through to
`b` when the override is absent or empty (`barcode_lookup.py:246,251,
252`). -/
def pyOr (a : Option String) (b : String) : String :=
  match a with
  | some s => if s.isEmpty then b else s
  | none => b

/-- Python dict assignment `database[barcode] = entry` on an
insertion-ordered association list with unique keys: update in place
when the key exists, append otherwise. -/
def dictInsert (db : List (String × AssocEntry)) (k : String)
    (v : AssocEntry) : List (String × AssocEntry) :=
  if db.any (fun p => p.1 = k) then
    db.map (fun p => if p.1 = k then (k, v) else p)
  else
    db ++ [(k, v)]

/-- Python `database[k]` read through `dict.get` semantics. -/
def dictGet (db : List (String × AssocEntry)) (k : String) :
    Option AssocEntry :=
  (db.find? (fun p => p.1 = k)).map (fun p => p.2)

/-- The entry built by `associate_barcode_with_album`
(`barcode_lookup.py:245-269`): artist/album/path overrides applied with
Python `or`, the artist truncated at the first comma, and the entry's
`barcode` field (and, below, its store key) being the `barcode`
argument exactly as passed by the caller. -/
def assocEntryOf (barcode : String) (md : Metadata)
    (artist? album? path? : Option String) (now : String) : AssocEntry :=
  { barcode := barcode
    artist := firstArtist (pyOr artist? md.artist)
    album := pyOr album? md.title
    discogsId := md.discogsId
    discogsUrl := md.discogsUrl
    year := md.year
    genres := md.genres
    formats := md.formats
    labels := md.labels
    country := md.country
    catno := md.catno
    path := pyOr path? md.path
    timestamp := now }

/-- `associate_barcode_with_album` (`barcode_lookup.py:232-275`):
builds the entry and stores it under `database[barcode]` — the raw
`barcode` argument, with no normalization step anywhere in the
function. -/
def associateBarcodeWithAlbum (db : List (String × AssocEntry))
    (barcode : String) (md : Metadata)
    (artist? album? path? : Option String) (now : String) :
    List (String × AssocEntry) :=
  dictInsert db barcode (assocEntryOf barcode md artist? album? path? now)

/-- Python substring test `needle in hay` on character lists. -/
def listIn (needle : List Char) : List Char → Bool
  | [] => needle.isEmpty
  | c :: rest => needle.isPrefixOf (c :: rest) || listIn needle rest

/-- Python `needle in hay` for strings. -/
def pyInStr (needle hay : String) : Bool :=
  listIn needle.toList hay.toList

/-- The partial-match accumulation loop of
`find_all_albums_in_database` (`barcode_lookup.py:127-130`): for every
stored `(key, entry)`, if the query is a substring of the key or the
key a substring of the query, append the entry unless an equal entry
was already collected. -/
def dedupScan (acc : List AssocEntry) (q : String) :
    List (String × AssocEntry) → List AssocEntry
  | [] => acc
  | (k, e) :: rest =>
    if (pyInStr q k || pyInStr k q) = true ∧ e ∉ acc then
      dedupScan (acc ++ [e]) q rest
    else
      dedupScan acc q rest

/-- `find_all_albums_in_database` (`barcode_lookup.py:108-132`): the
exact-key hit first, then the bidirectional-substring scan with
dedup-by-value.  The query is compared exactly as passed by the caller
(`barcode_lookup.py:294` and `barcode_lookup.py:384` pass the raw
scanned input). -/
def findAllAlbumsInDatabase (db : List (String × AssocEntry))
    (q : String) : List AssocEntry :=
  let init :=
    match dictGet db q with
    | some e => [e]
    | none => []
  dedupScan init q db

/-- Characters replaced by `sanitize_filename`
(`album_json_creator.py:40`): the class `[\\/*?:"<>|]`. -/
def forbiddenChar (c : Char) : Bool :=
  c ∈ ['\\', '/', '*', '?', ':', '"', '<', '>', '|']

/-- One character of the `re.sub` replacement. -/
def replChar (c : Char) : Char :=
  if forbiddenChar c then '_' else c

/-- The character class of Python `strip('. ')`. -/
def dotSpace (c : Char) : Bool :=
  c = '.' ∨ c = ' '

/-- Python `strip('. ')` on a character list. -/
def stripDotSpace (l : List Char) : List Char :=
  ((l.dropWhile dotSpace).reverse.dropWhile dotSpace).reverse

/-- `sanitize_filename` (`album_json_creator.py:29-46`): replace the
forbidden characters with underscores, strip leading/trailing spaces
and periods, truncate to 100 characters. -/
def sanitizeFilename (s : String) : String :=
  ⟨(stripDotSpace (s.toList.map replChar)).take 100⟩

/-- The album JSON written by `create_album_json`
(`album_json_creator.py:294-307`); `created` stands for
`datetime.now().isoformat()`. -/
structure CanonicalAlbum where
  artist : String
  title : String
  year : Option Nat
  country : String
  genres : String
  labels : String
  catno : String
  formats : String
  discogsUrl : String
  barcode : String
  path : String
  created : String
deriving DecidableEq, Repr

/-- `create_album_json` (`album_json_creator.py:262-317`): truncate
the artist at the first comma and lay the metadata out in the canonical
record shape (list fields comma-joined). -/
def createAlbumJson (md : Metadata) (now : String) : CanonicalAlbum :=
  { artist := firstArtist md.artist
    title := md.title
    year := md.year
    country := md.country
    genres := joinComma md.genres
    labels := joinComma md.labels
    catno := md.catno
    formats := joinComma md.formats
    discogsUrl := md.discogsUrl
    barcode := md.barcode
    path := md.path
    created := now }

/-- A release with two distinct barcode identifiers, for exercising the
multi-barcode ingestion path. -/
def relTwoBarcodes : Release :=
  { id := 1, title := "Unplugged", artistNames := ["Eric Clapton"],
    released := "1992", country := "US", formatNames := ["CD"],
    labelNames := ["Reprise"], catnos := ["9362-45024-2"],
    genreNames := ["Rock"],
    identifiers := [⟨"Barcode", "111"⟩, ⟨"Barcode", "222"⟩] }

/-- A release whose only barcode identifier is non-empty before
normalization but has no digits at all. -/
def relNoDigits : Release :=
  { id := 7, title := "T7", artistNames := ["A7"], released := "",
    country := "", formatNames := [], labelNames := [], catnos := [],
    genreNames := [], identifiers := [⟨"Barcode", "ABC"⟩] }

/-- A release whose only barcode identifier normalizes to all zeros. -/
def relAllZeros : Release :=
  { id := 8, title := "T8", artistNames := ["A8"], released := "",
    country := "", formatNames := [], labelNames := [], catnos := [],
    genreNames := [], identifiers := [⟨"Barcode", "0-0"⟩] }

/-- First of two releases sharing barcode `123` (smaller id,
processed first). -/
def relShared1 : Release :=
  { id := 1, title := "A", artistNames := ["X"], released := "",
    country := "", formatNames := [], labelNames := [], catnos := [],
    genreNames := [], identifiers := [⟨"Barcode", "123"⟩] }

/-- Second of two releases sharing barcode `123` (larger id,
processed last). -/
def relShared2 : Release :=
  { id := 2, title := "B", artistNames := ["Y"], released := "",
    country := "", formatNames := [], labelNames := [], catnos := [],
    genreNames := [], identifiers := [⟨"Barcode", "123"⟩] }

/-- A concrete metadata value, as `lookup_barcode` would return it. -/
def mdSample : Metadata :=
  { barcode := "075596082921", discogsId := 42,
    discogsUrl := "https://www.discogs.com/release/42",
    title := "Unplugged", artist := "Eric Clapton", year := some 1992,
    country := "US", formats := ["CD"], labels := ["Reprise"],
    genres := ["Rock"], catno := "9362-45024-2", path := "" }

/-- A concrete association-store entry for witnesses. -/
def assocSample : AssocEntry :=
  assocEntryOf "123" mdSample none none none "t0"

/-- A concrete indexed-store row for witnesses. -/
def rowSample : Row :=
  { id := 42, barcode := "123", title := "Unplugged",
    artist := "Eric Clapton, Band", year := some 1992, country := "US",
    format := "CD", label := "Reprise", genre := "Rock",
    catno := "9362-45024-2" }

/-! ## General helper lemmas -/

theorem mem_of_mem_stripEnds {p : Char → Bool} {c : Char} {l : List Char}
    (h : c ∈ ((l.dropWhile p).reverse.dropWhile p).reverse) : c ∈ l := by
  rw [List.mem_reverse] at h
  have h2 : c ∈ (l.dropWhile p).reverse :=
    (List.dropWhile_sublist _).mem h
  rw [List.mem_reverse] at h2
  exact (List.dropWhile_sublist _).mem h2

theorem mem_of_mem_pstrip {c : Char} {s : String}
    (h : c ∈ (pstrip s).toList) : c ∈ s.toList := by
  exact mem_of_mem_stripEnds h

theorem comma_not_mem_firstArtist (s : String) :
    ',' ∉ (firstArtist s).toList := by
  by_cases h : ',' ∈ s.toList
  · intro hc
    rw [firstArtist, if_pos h] at hc
    have hm : ',' ∈ s.toList.takeWhile (fun c => c ≠ ',') :=
      mem_of_mem_pstrip hc
    have := List.mem_takeWhile_imp hm
    simp at this
  · intro hc
    rw [firstArtist, if_neg h] at hc
    exact h hc

theorem listIn_nil (l : List Char) : listIn [] l = true := by
  induction l with
  | nil => rfl
  | cons c rest ih => simp [listIn, List.isPrefixOf]

theorem pyInStr_empty (s : String) : pyInStr "" s = true := by
  simpa [pyInStr] using listIn_nil s.toList

/-! ## Claim theorems -/

/-- Claim C1 (code bug exhibited): a release carrying two distinct
barcode-typed identifiers (`relTwoBarcodes`, barcodes `111` and `222`)
does emit both pairs during extraction, but because the `releases`
table's only uniqueness constraint is the primary key `id` and each
barcode is written with `INSERT OR REPLACE`, the second insert replaces
the first release row; after rebuild the index holds a single row for
the release and looking up the first barcode finds nothing, contrary to
the claim that each distinct normalized barcode resolves to the
release. -/
theorem c1_second_barcode_replaces_first :
    extractBarcodes relTwoBarcodes = ["111", "222"] ∧
    (processReleases [relTwoBarcodes]).map (fun r => r.barcode) = ["222"] ∧
    lookupBarcode (processReleases [relTwoBarcodes]) "111" = none ∧
    (lookupBarcode (processReleases [relTwoBarcodes]) "222").isSome = true := by
  refine ⟨by decide, by decide, by decide, by decide⟩

/-- Claim C2 (counterexample): two releases with distinct ids share the
normalized barcode `123`; `relShared2` (title `B`) is processed last,
yet the lookup returns title `A` — the row of the *earlier* record —
and the earlier record's row is still present in the table, so the
later pair did not overwrite the earlier one. -/
theorem c2_counterexample :
    ((lookupBarcode (processReleases [relShared1, relShared2]) "123").map
        (fun m => m.title) = some "A") ∧
    rowOfRelease relShared1 "123" ∈ processReleases [relShared1, relShared2] ∧
    rowOfRelease relShared2 "123" ∈ processReleases [relShared1, relShared2] ∧
    ("A" : String) ≠ "B" := by
  refine ⟨by decide, by decide, by decide, by decide⟩

/-- Claim C3 (code bug exhibited): the non-emptiness test in
`process_releases` runs *before* digit-normalization, so the identifier
value `ABC` (non-empty raw, empty after normalization) is inserted
under the empty barcode key; and `lookup_barcode` performs the index
query on degenerate keys — a scan of `-` (normalizes to the empty
string) and a scan of `0-0` (normalizes to all zeros) both execute the
lookup and even return hits, instead of being rejected. -/
theorem c3_degenerate_barcodes_indexed_and_queried :
    (processReleases [relNoDigits]).map (fun r => r.barcode) = [""] ∧
    (lookupBarcode (processReleases [relNoDigits]) "-").isSome = true ∧
    (processReleases [relAllZeros]).map (fun r => r.barcode) = ["00"] ∧
    (lookupBarcode (processReleases [relAllZeros]) "0-0").isSome = true := by
  refine ⟨by decide, by decide, by decide, by decide⟩

/-- Claim C5 (counterexample): merging the single-record set whose
record has no `Barcode` key grows the inventory again on the second
merge — the dedup test `if barcode and barcode in existing_barcodes`
never fires for a falsy barcode, so idempotence fails. -/
theorem c5_counterexample :
    updateInventory
        (updateInventory [] [{ Barcode := none, payload := "x" }])
        [{ Barcode := none, payload := "x" }] ≠
      updateInventory [] [{ Barcode := none, payload := "x" }] := by
  decide

/-- Claim C6: normalization returns exactly the digit subsequence of
its input in original order, is idempotent, and consequently a lookup
of `07559-6082921` coincides with a lookup of `075596082921` on any
index contents. -/
theorem c6_normalization_digit_subsequence (s : String) :
    (normalizeBarcode s).toList = s.toList.filter Char.isDigit ∧
    (normalizeBarcode s).toList.Sublist s.toList ∧
    (∀ c ∈ (normalizeBarcode s).toList, c.isDigit = true) ∧
    normalizeBarcode (normalizeBarcode s) = normalizeBarcode s ∧
    ∀ db : List Row,
      lookupBarcode db "07559-6082921" = lookupBarcode db "075596082921" := by
  have hid : ∀ t : String, normalizeBarcode (normalizeBarcode t) =
      normalizeBarcode t := by
    intro t
    show String.mk ((t.toList.filter Char.isDigit).filter Char.isDigit) =
      String.mk (t.toList.filter Char.isDigit)
    exact congrArg String.mk
      (List.filter_eq_self.mpr (fun a ha => (List.mem_filter.mp ha).2))
  refine ⟨rfl, List.filter_sublist _, ?_, hid s, ?_⟩
  · intro c hc
    exact (List.mem_filter.mp hc).2
  · intro db
    have h1 : normalizeBarcode "07559-6082921" = "075596082921" := by decide
    have h2 : normalizeBarcode "075596082921" = "075596082921" := by decide
    simp only [lookupBarcode, h1, h2]

/-- Claim C9: filename sanitization leaves no forbidden character in
its output, outputs at most 100 characters, and maps the spec's example
input to exactly the expected sanitized name.  The order of operations
(replace, then strip `'. '`, then truncate) is the definition of
`sanitizeFilename`, read off `album_json_creator.py:40-45`. -/
theorem c9_sanitize_filename_contract (s : String) :
    (∀ c ∈ (sanitizeFilename s).toList, forbiddenChar c = false) ∧
    (sanitizeFilename s).length ≤ 100 ∧
    sanitizeFilename "Queen, Freddie Mercury - A/B: Test? (1999)" =
      "Queen, Freddie Mercury - A_B_ Test_ (1999)" := by
  refine ⟨?_, ?_, by decide⟩
  · intro c hc
    have h1 : c ∈ stripDotSpace (s.toList.map replChar) :=
      (List.take_sublist _ _).mem hc
    have h2 : c ∈ s.toList.map replChar := mem_of_mem_stripEnds h1
    obtain ⟨a, _, ha⟩ := List.mem_map.mp h2
    rw [← ha, replChar]
    by_cases hf : forbiddenChar a = true
    · rw [if_pos hf]
      decide
    · rw [if_neg hf]
      exact Bool.not_eq_true _ ▸ hf
  · show ((stripDotSpace (s.toList.map replChar)).take 100).length ≤ 100
    exact List.length_take_le 100 (stripDotSpace (s.toList.map replChar))

/-- Claim C8: the batch-mode selection among local JSON records equals
`List.find?` over the files in file-system enumeration order — i.e. the
first record in stable encounter order whose `Barcode` equals the
query.  The selection is a pure function of the store contents, so
resolving the same barcode over the same store always yields this same
first-encountered record. -/
theorem c8_batch_selection_first_in_order
    (files : List (String × AlbumRecord)) (b : String) :
    batchFirstMatch files b =
      files.find? (fun p => p.2.Barcode = some b) ∧
    ∀ p, batchFirstMatch files b = some p →
      p ∈ files ∧ p.2.Barcode = some b := by
  have hmain : batchFirstMatch files b =
      files.find? (fun p => p.2.Barcode = some b) := by
    induction files with
    | nil => rfl
    | cons q rest ih =>
      by_cases h : q.2.Barcode = some b
      · simp [batchFirstMatch, findAllAlbumsByBarcode, List.filter_cons,
          List.find?_cons, h]
      · simp only [batchFirstMatch, findAllAlbumsByBarcode,
          List.filter_cons, List.find?_cons] at ih ⊢
        simp only [h, decide_False, if_false]
        exact ih
  refine ⟨hmain, ?_⟩
  intro p hp
  rw [hmain] at hp
  refine ⟨List.mem_of_find?_eq_some hp, ?_⟩
  have := List.find?_some hp
  simpa using this

/-- Claim C2 (amended): when two releases with *distinct* ids each
contribute the same non-empty normalized barcode, both rows remain in
the rebuilt index (insert-or-replace conflicts only on the release id,
so there is no overwrite and no error), and the lookup of the shared
barcode returns the attributes of the record with the smaller release
id — the first row in barcode-index scan order — independently of
which record was processed last. -/
theorem c2_shared_barcode_smaller_id_wins (r1 r2 : Release) (b : String)
    (hid : r1.id ≠ r2.id)
    (h1 : extractBarcodes r1 = [b]) (h2 : extractBarcodes r2 = [b])
    (hn : normalizeBarcode b = b) :
    rowOfRelease r1 b ∈ processReleases [r1, r2] ∧
    rowOfRelease r2 b ∈ processReleases [r1, r2] ∧
    lookupBarcode (processReleases [r1, r2]) b =
      some (metaOfRow b
        (rowOfRelease (if r1.id ≤ r2.id then r1 else r2) b)) := by
  have hids : (rowOfRelease r1 b).id ≠ (rowOfRelease r2 b).id := hid
  have hdb : processReleases [r1, r2] =
      [rowOfRelease r2 b, rowOfRelease r1 b] := by
    simp only [processReleases, List.foldl_cons, List.foldl_nil,
      processRelease, h1, h2, insertOrReplace, List.filter_nil,
      List.filter_cons]
    simp [hids]
  refine ⟨by rw [hdb]; simp, by rw [hdb]; simp, ?_⟩
  have hfetch : fetchBarcodeRow (processReleases [r1, r2]) b =
      some (if (rowOfRelease r2 b).id ≤ (rowOfRelease r1 b).id then
        rowOfRelease r2 b else rowOfRelease r1 b) := by
    rw [hdb, fetchBarcodeRow]
    have hb1 : (rowOfRelease r1 b).barcode = b := rfl
    have hb2 : (rowOfRelease r2 b).barcode = b := rfl
    simp [List.filter_cons, hb1, hb2, minIdRow]
  simp only [lookupBarcode, hn, hfetch, Option.map_some']
  rcases Nat.lt_or_ge r1.id r2.id with hlt | hge
  · have hle : r1.id ≤ r2.id := Nat.le_of_lt hlt
    have hnot : ¬((rowOfRelease r2 b).id ≤ (rowOfRelease r1 b).id) :=
      Nat.not_le.mpr hlt
    rw [if_neg hnot, if_pos hle]
  · have hlt2 : r2.id < r1.id := Nat.lt_of_le_of_ne hge (fun h => hid h.symm)
    have hyes : (rowOfRelease r2 b).id ≤ (rowOfRelease r1 b).id :=
      Nat.le_of_lt hlt2
    have hnot : ¬(r1.id ≤ r2.id) := Nat.not_le.mpr hlt2
    rw [if_pos hyes, if_neg hnot]

theorem updInv_prefix (files : List AlbumRecord) :
    ∀ acc ex, ∃ app, updInv acc ex files = acc ++ app := by
  induction files with
  | nil =>
    intro acc ex
    exact ⟨[], by simp [updInv]⟩
  | cons a rest ih =>
    intro acc ex
    by_cases h : truthy a.Barcode = true ∧ a.Barcode ∈ ex
    · obtain ⟨app, happ⟩ := ih acc ex
      refine ⟨app, ?_⟩
      simp only [updInv]
      rw [if_pos h]
      exact happ
    · obtain ⟨app, happ⟩ := ih (acc ++ [a])
        (if truthy a.Barcode = true then ex ++ [a.Barcode] else ex)
      refine ⟨[a] ++ app, ?_⟩
      simp only [updInv]
      rw [if_neg h, happ, List.append_assoc]

theorem updInv_skip (files : List AlbumRecord) :
    ∀ acc ex, (∀ a ∈ files, truthy a.Barcode = true ∧ a.Barcode ∈ ex) →
      updInv acc ex files = acc := by
  induction files with
  | nil =>
    intro acc ex _
    rfl
  | cons a rest ih =>
    intro acc ex h
    have ha := h a (List.mem_cons_self a rest)
    simp only [updInv]
    rw [if_pos ha]
    exact ih acc ex (fun x hx => h x (List.mem_cons_of_mem a hx))

theorem updInv_tracks_barcodes (files : List AlbumRecord) :
    ∀ acc ex, (∀ bc ∈ ex, bc ∈ acc.map (fun r => r.Barcode)) →
      ∀ a ∈ files, truthy a.Barcode = true →
        a.Barcode ∈ (updInv acc ex files).map (fun r => r.Barcode) := by
  induction files with
  | nil =>
    intro acc ex _ a ha _
    exact absurd ha (List.not_mem_nil a)
  | cons x rest ih =>
    intro acc ex hsub a ha htr
    by_cases hc : truthy x.Barcode = true ∧ x.Barcode ∈ ex
    · simp only [updInv]
      rw [if_pos hc]
      rcases List.mem_cons.mp ha with rfl | ha2
      · obtain ⟨app, happ⟩ := updInv_prefix rest acc ex
        rw [happ, List.map_append]
        exact List.mem_append_left _ (hsub a.Barcode hc.2)
      · exact ih acc ex hsub a ha2 htr
    · simp only [updInv]
      rw [if_neg hc]
      have hsub2 : ∀ bc ∈ (if truthy x.Barcode = true then
          ex ++ [x.Barcode] else ex),
          bc ∈ (acc ++ [x]).map (fun r => r.Barcode) := by
        intro bc hbc
        rw [List.map_append]
        by_cases ht : truthy x.Barcode = true
        · rw [if_pos ht] at hbc
          rcases List.mem_append.mp hbc with hbc2 | hbc2
          · exact List.mem_append_left _ (hsub bc hbc2)
          · rw [List.mem_singleton] at hbc2
            subst hbc2
            exact List.mem_append_right _ (by simp)
        · rw [if_neg ht] at hbc
          exact List.mem_append_left _ (hsub bc hbc)
      rcases List.mem_cons.mp ha with rfl | ha2
      · obtain ⟨app, happ⟩ := updInv_prefix rest (acc ++ [a])
          (if truthy a.Barcode = true then ex ++ [a.Barcode] else ex)
        rw [happ, List.map_append]
        refine List.mem_append_left _ ?_
        rw [List.map_append]
        exact List.mem_append_right _ (by simp)
      · exact ih (acc ++ [x]) _ hsub2 a ha2 htr

/-- Claim C5 (amended): the inventory merge is idempotent for record
sets in which every record carries a truthy (present and non-empty)
`Barcode` — after one merge every such barcode is tracked, so a second
merge of the same record set skips every file and the collection does
not grow.  (The unamended claim fails for records with a missing or
empty `Barcode`, which are re-appended on every merge.) -/
theorem c5_merge_idempotent_for_barcoded (inv files : List AlbumRecord)
    (h : ∀ a ∈ files, truthy a.Barcode = true) :
    updateInventory (updateInventory inv files) files =
      updateInventory inv files := by
  apply updInv_skip
  intro a ha
  refine ⟨h a ha, ?_⟩
  exact updInv_tracks_barcodes files inv (inv.map (fun r => r.Barcode))
    (fun bc hbc => hbc) a ha (h a ha)

/-- Claim C7: when a scanned barcode has no local JSON-store match but
its normalized form is present in the index, the lookup resolves to a
candidate metadata whose artist is the stored artist truncated at the
first comma (whitespace-stripped, no truncation when no comma is
present) and whose source URL is `https://www.discogs.com/release/`
followed by the external id; and every canonical album record emitted
by `create_album_json` has a comma-free `Artist` field. -/
theorem c7_new_candidate_artist_and_url
    (files : List (String × AlbumRecord)) (db : List Row) (raw : String)
    (r : Row)
    (_hloc : findAllAlbumsByBarcode files raw = [])
    (hfetch : fetchBarcodeRow db (normalizeBarcode raw) = some r) :
    lookupBarcode db raw = some (metaOfRow (normalizeBarcode raw) r) ∧
    (metaOfRow (normalizeBarcode raw) r).artist = firstArtist r.artist ∧
    (metaOfRow (normalizeBarcode raw) r).discogsUrl =
      "https://www.discogs.com/release/" ++ toString r.id ∧
    ∀ (md : Metadata) (now : String),
      ',' ∉ ((createAlbumJson md now).artist).toList := by
  refine ⟨?_, rfl, rfl, ?_⟩
  · simp only [lookupBarcode, hfetch, Option.map_some']
  · intro md now
    exact comma_not_mem_firstArtist md.artist

theorem dedupScan_nodup (items : List (String × AssocEntry)) :
    ∀ acc q, acc.Nodup → (dedupScan acc q items).Nodup := by
  induction items with
  | nil =>
    intro acc q h
    exact h
  | cons p rest ih =>
    obtain ⟨k, e⟩ := p
    intro acc q h
    by_cases hc : (pyInStr q k || pyInStr k q) = true ∧ e ∉ acc
    · simp only [dedupScan]
      rw [if_pos hc]
      refine ih _ q ?_
      rw [List.nodup_append]
      refine ⟨h, List.nodup_singleton e, ?_⟩
      intro a ha hae
      rw [List.mem_singleton] at hae
      subst hae
      exact hc.2 ha
    · simp only [dedupScan]
      rw [if_neg hc]
      exact ih acc q h

theorem dedupScan_mem_empty_query (items : List (String × AssocEntry)) :
    ∀ acc (x : AssocEntry),
      x ∈ dedupScan acc "" items ↔
        x ∈ acc ∨ x ∈ items.map (fun p => p.2) := by
  induction items with
  | nil =>
    intro acc x
    simp [dedupScan]
  | cons p rest ih =>
    obtain ⟨k, e⟩ := p
    intro acc x
    have hq : (pyInStr "" k || pyInStr k "") = true := by
      rw [pyInStr_empty]
      simp
    by_cases he : e ∈ acc
    · have hneg : ¬((pyInStr "" k || pyInStr k "") = true ∧ e ∉ acc) := by
        simp [he]
      simp only [dedupScan]
      rw [if_neg hneg, ih acc x, List.map_cons, List.mem_cons]
      constructor
      · rintro (h | h)
        · exact Or.inl h
        · exact Or.inr (Or.inr h)
      · rintro (h | rfl | h)
        · exact Or.inl h
        · exact Or.inl he
        · exact Or.inr h
    · have hpos : ((pyInStr "" k || pyInStr k "") = true ∧ e ∉ acc) :=
        ⟨hq, he⟩
      simp only [dedupScan]
      rw [if_pos hpos, ih (acc ++ [e]) x, List.map_cons, List.mem_cons,
        List.mem_append, List.mem_singleton]
      tauto

/-- Claim C10 (implicit behavior): on any non-empty association store,
searching with the empty string degenerates to match-all — the
bidirectional substring fallback accepts every stored key, so the
result contains every distinct stored record value exactly once
(dedup by value equality). -/
theorem c10_empty_query_matches_all (db : List (String × AssocEntry))
    (_hne : db ≠ []) :
    (∀ e, e ∈ findAllAlbumsInDatabase db "" ↔
      e ∈ db.map (fun p => p.2)) ∧
    (findAllAlbumsInDatabase db "").Nodup := by
  constructor
  · intro e
    cases hget : dictGet db "" with
    | none =>
      simp only [findAllAlbumsInDatabase, hget]
      rw [dedupScan_mem_empty_query]
      simp
    | some e0 =>
      have he0 : e0 ∈ db.map (fun p => p.2) := by
        rw [dictGet] at hget
        obtain ⟨p, hp, hpe⟩ := Option.map_eq_some'.mp hget
        exact hpe ▸ List.mem_map_of_mem _ (List.mem_of_find?_eq_some hp)
      simp only [findAllAlbumsInDatabase, hget]
      rw [dedupScan_mem_empty_query]
      rw [List.mem_singleton]
      constructor
      · rintro (rfl | h)
        · exact he0
        · exact h
      · intro h
        exact Or.inr h
  · cases hget : dictGet db "" with
    | none =>
      simp only [findAllAlbumsInDatabase, hget]
      exact dedupScan_nodup db [] "" List.nodup_nil
    | some e0 =>
      simp only [findAllAlbumsInDatabase, hget]
      exact dedupScan_nodup db [e0] "" (List.nodup_singleton e0)

theorem find_update_same_key (k : String) (v : AssocEntry) :
    ∀ db : List (String × AssocEntry),
      db.any (fun p => p.1 = k) = true →
      (db.map (fun p => if p.1 = k then (k, v) else p)).find?
        (fun p => p.1 = k) = some (k, v) := by
  intro db
  induction db with
  | nil =>
    intro h
    simp at h
  | cons p rest ih =>
    intro h
    by_cases hp : p.1 = k
    · simp [List.find?_cons, hp]
    · have hrest : rest.any (fun p => p.1 = k) = true := by
        simpa [List.any_cons, hp] using h
      simp only [List.map_cons, if_neg hp, List.find?_cons]
      simp only [hp, decide_False]
      exact ih hrest

theorem find_append_new_key (k : String) (v : AssocEntry) :
    ∀ db : List (String × AssocEntry),
      db.any (fun p => p.1 = k) = false →
      (db ++ [(k, v)]).find? (fun p => p.1 = k) = some (k, v) := by
  intro db
  induction db with
  | nil =>
    intro _
    simp [List.find?_cons]
  | cons p rest ih =>
    intro h
    rw [List.any_cons] at h
    have hp : ¬(p.1 = k) := by
      intro hk
      simp [hk] at h
    have hrest : rest.any (fun p => p.1 = k) = false := by
      simpa [hp] using h
    simp only [List.cons_append, List.find?_cons]
    simp only [hp, decide_False]
    exact ih hrest

theorem dictGet_dictInsert (db : List (String × AssocEntry)) (k : String)
    (v : AssocEntry) : dictGet (dictInsert db k v) k = some v := by
  by_cases h : db.any (fun p => p.1 = k) = true
  · rw [dictInsert, if_pos h, dictGet, find_update_same_key k v db h]
    rfl
  · have hf : db.any (fun p => p.1 = k) = false :=
      Bool.eq_false_iff.mpr h
    rw [dictInsert, if_neg h, dictGet, find_append_new_key k v db hf]
    rfl

/-- Claim C4 (counterexample): associating the raw scanned barcode
`07559-6082921` stores the entry under that raw string — not under its
digits-only normalization `075596082921` — and the association-store
search finds the entry for the raw input but not for the normalized
input, so neither the write nor the search normalizes. -/
theorem c4_counterexample :
    (associateBarcodeWithAlbum [] "07559-6082921" mdSample none none none
        "t0").map (fun p => p.1) = ["07559-6082921"] ∧
    normalizeBarcode "07559-6082921" = "075596082921" ∧
    ("07559-6082921" : String) ≠ "075596082921" ∧
    findAllAlbumsInDatabase
      (associateBarcodeWithAlbum [] "07559-6082921" mdSample none none none
        "t0") "075596082921" = [] ∧
    findAllAlbumsInDatabase
      (associateBarcodeWithAlbum [] "07559-6082921" mdSample none none none
        "t0") "07559-6082921" ≠ [] := by
  refine ⟨by decide, by decide, by decide, by decide, by decide⟩

/-- Claim C4 (amended): the association-store write stores each entry
under the barcode string exactly as passed by the caller (the entry's
own `barcode` field likewise), with no digits-only normalization in the
association-store path; normalization happens only in the
indexed-store lookup. -/
theorem c4_assoc_store_raw_barcode (db : List (String × AssocEntry))
    (bc : String) (md : Metadata) (artist? album? path? : Option String)
    (now : String) :
    dictGet (associateBarcodeWithAlbum db bc md artist? album? path? now)
        bc = some (assocEntryOf bc md artist? album? path? now) ∧
    (assocEntryOf bc md artist? album? path? now).barcode = bc :=
  ⟨dictGet_dictInsert db bc (assocEntryOf bc md artist? album? path? now),
   rfl⟩

/-- Witness for claim C2's amended theorem at the concrete releases
`relShared1` and `relShared2`. -/
theorem c2_witness :
    (relShared1.id ≠ relShared2.id ∧
     extractBarcodes relShared1 = ["123"] ∧
     extractBarcodes relShared2 = ["123"] ∧
     normalizeBarcode "123" = "123") ∧
    (rowOfRelease relShared1 "123" ∈
        processReleases [relShared1, relShared2] ∧
     rowOfRelease relShared2 "123" ∈
        processReleases [relShared1, relShared2] ∧
     lookupBarcode (processReleases [relShared1, relShared2]) "123" =
       some (metaOfRow "123"
         (rowOfRelease
           (if relShared1.id ≤ relShared2.id then relShared1
            else relShared2) "123"))) :=
  ⟨⟨by decide, by decide, by decide, by decide⟩,
   c2_shared_barcode_smaller_id_wins relShared1 relShared2 "123"
     (by decide) (by decide) (by decide) (by decide)⟩

/-- Witness for claim C5's amended theorem on a one-record set with a
non-empty barcode. -/
theorem c5_witness :
    (∀ a ∈ [({ Barcode := some "075678235320", payload := "JLP" } :
        AlbumRecord)], truthy a.Barcode = true) ∧
    updateInventory
        (updateInventory []
          [{ Barcode := some "075678235320", payload := "JLP" }])
        [{ Barcode := some "075678235320", payload := "JLP" }] =
      updateInventory []
        [{ Barcode := some "075678235320", payload := "JLP" }] :=
  ⟨by decide,
   c5_merge_idempotent_for_barcoded []
     [{ Barcode := some "075678235320", payload := "JLP" }] (by decide)⟩

/-- Witness for claim C7's theorem on a one-row index containing
`rowSample` and the scan `123`. -/
theorem c7_witness :
    (findAllAlbumsByBarcode ([] : List (String × AlbumRecord)) "123" =
        [] ∧
     fetchBarcodeRow [rowSample] (normalizeBarcode "123") =
        some rowSample) ∧
    lookupBarcode [rowSample] "123" =
      some (metaOfRow (normalizeBarcode "123") rowSample) :=
  ⟨⟨rfl, by decide⟩,
   (c7_new_candidate_artist_and_url [] [rowSample] "123" rowSample rfl
     (by decide)).1⟩

/-- Witness for claim C10's theorem on a one-entry association store. -/
theorem c10_witness :
    ([("123", assocSample)] ≠ ([] : List (String × AssocEntry))) ∧
    (findAllAlbumsInDatabase [("123", assocSample)] "").Nodup :=
  ⟨by decide,
   (c10_empty_query_matches_all [("123", assocSample)] (by decide)).2⟩
